import Mathlib

/-!
Verification of the actor-system runtime of the dspygen repository.

The repository ships the test suite `tests/actor/test_actor_system.py` for the
actor runtime (`dspygen.rdddy.actor_system`, `base_actor`, `base_message`,
`base_event`), but the runtime modules themselves are not present among the
source files.  Every definition below whose doc comment starts with
`Modelled from the spec:` is therefore a shallow embedding built from the
specification's words (sections 3-5 and 7 of the spec), kept faithful to the
observable behaviour the shipped tests pin down (log-message texts, error
texts, membership checks).

State is passed explicitly: each operation maps an `ActorSystem` value to a
result together with the successor system.  Fallible operations return an
`Except`-style result paired with the successor state, so that the
"all-or-nothing" / "no partial registration" policies are visible as
equations on the state component.
-/

/-- Modelled from the spec: the runtime kind tag of a message.  The abstract
base kind (`BaseMessage`) is never a valid wire value; `event` and `command`
are the concrete kinds (`BaseEvent`, `BaseCommand`). -/
inductive MsgKind where
  | base
  | event
  | command
deriving DecidableEq, Repr

/-- Modelled from the spec: a message is a runtime kind tag together with an
opaque `content` payload (represented as a `String`, as in the tests). -/
structure BaseMessage where
  kind : MsgKind
  content : String
deriving DecidableEq, Repr

/-- Modelled from the spec: an actor is a unit of sequential message
processing: a unique immutable `actorId`, a dispatch table (`handled`, the
set of message kinds it declares a handler for, built once at construction),
and the observable effect of its handler, recorded as the content of the last
message it processed (`received`) — exactly the observation made by
`TestBaseActor` in the tests. -/
structure Actor where
  actorId : Nat
  handled : List MsgKind
  received : Option String
deriving DecidableEq, Repr

/-- Whether the actor declares a handler for kind `k`. -/
def Actor.handles (a : Actor) (k : MsgKind) : Bool :=
  a.handled.contains k

/-- Modelled from the spec: what an actor factory supplies when construction
succeeds — the dispatch table the new actor declares at construction time. -/
structure ActorSpec where
  handled : List MsgKind
deriving DecidableEq, Repr

/-- Modelled from the spec: an actor factory either constructs an actor
specification or fails with an error (`FactoryError` carrying the failure). -/
def Factory : Type := Except String ActorSpec

/-- Modelled from the spec: error taxonomy of the runtime.
`invalidMessageKind` is a programmer error raised synchronously when the
abstract base message kind is passed to `send`/`publish` (surfaced as
`ValueError("The base Message class should not be used directly")` in the
tests); `factoryError` propagates a factory failure unchanged;
`alreadyShutdown` is the refusal of operations after `shutdown()`. -/
inductive Err where
  | invalidMessageKind
  | factoryError (e : String)
  | alreadyShutdown
deriving DecidableEq, Repr

/-- Modelled from the spec: how a pending waiter's suspension ends — either
with the exact published message instance, or with the cancellation signal
delivered by `shutdown()`. -/
inductive WaitResult where
  | delivered (m : BaseMessage)
  | cancelled
deriving DecidableEq, Repr

/-- Modelled from the spec: a pending one-shot waiter created by
`wait_for_message`: a completion handle identified by `wid`, filtered on the
message kind it waits for. -/
structure Waiter where
  wid : Nat
  waitKind : MsgKind
deriving DecidableEq, Repr

/-- Modelled from the spec: the `ActorSystem` state — the registry of owned
actors, a fresh-id counter for actor ids, the registry of pending waiters
with its own fresh-id counter, the resolutions handed to completed waiters,
the observability sink (`log`), and the lifecycle flag set by `shutdown()`. -/
structure ActorSystem where
  actors : List Actor
  nextId : Nat
  waiters : List Waiter
  nextWid : Nat
  resolved : List (Nat × WaitResult)
  log : List String
  isShutdown : Bool

/-- The freshly constructed actor system: empty registries, counters at 0. -/
def ActorSystem.init : ActorSystem :=
  ⟨[], 0, [], 0, [], [], false⟩

/-- Membership lookup: `system[actor_id]`, returning the owned actor when the
id is registered. -/
def ActorSystem.getActor (s : ActorSystem) (aid : Nat) : Option Actor :=
  s.actors.find? (fun a => a.actorId == aid)

/-- The ids currently registered in the system. -/
def ActorSystem.ids (s : ActorSystem) : List Nat :=
  s.actors.map (·.actorId)

/-- Modelled from the spec: `actor_of(factory)` — refuses after shutdown,
propagates a factory failure unchanged with no registration, and otherwise
registers a new actor under a fresh unique id and returns it. -/
def ActorSystem.actor_of (s : ActorSystem) (f : Factory) :
    Except Err Actor × ActorSystem :=
  if s.isShutdown then (.error .alreadyShutdown, s)
  else
    match f with
    | .error e => (.error (.factoryError e), s)
    | .ok sp =>
        let a : Actor := ⟨s.nextId, sp.handled, none⟩
        (.ok a, { s with actors := s.actors ++ [a], nextId := s.nextId + 1 })

/-- Modelled from the spec: `actors_of(list_of_factories)` — the batch form of
`actor_of`, preserving input order; if any factory fails the whole call fails
and no partially-registered actors remain (the original state is kept). -/
def ActorSystem.actors_of (s : ActorSystem) :
    List Factory → Except Err (List Actor) × ActorSystem
  | [] => (.ok [], s)
  | f :: fs =>
      match s.actor_of f with
      | (.error e, _) => (.error e, s)
      | (.ok a, s₁) =>
          match s₁.actors_of fs with
          | (.error e, _) => (.error e, s)
          | (.ok as, s₂) => (.ok (a :: as), s₂)

/-- The effect of delivering message `m` to one actor: if the actor declares
a handler for `m`'s kind, the handler runs and the actor observes the
content; unrecognized kinds are silently ignored. -/
def deliverTo (m : BaseMessage) (a : Actor) : Actor :=
  if a.handles m.kind then { a with received := some m.content } else a

/-- Modelled from the spec: `send(actor_id, message)` — fails synchronously
with `invalidMessageKind` (state untouched) on the abstract base kind,
refuses after shutdown, delivers to exactly the addressed actor when
registered, and when the id is unknown completes normally while recording the
diagnostic "Actor {id} not found." through the observability sink. -/
def ActorSystem.send (s : ActorSystem) (aid : Nat) (m : BaseMessage) :
    Except Err Unit × ActorSystem :=
  if m.kind = MsgKind.base then (.error .invalidMessageKind, s)
  else if s.isShutdown then (.error .alreadyShutdown, s)
  else if (s.getActor aid).isSome then
    (.ok (), { s with
      actors := s.actors.map (fun a => if a.actorId == aid then deliverTo m a else a) })
  else
    (.ok (), { s with
      log := s.log ++ ["Actor " ++ toString aid ++ " not found."] })

/-- Modelled from the spec: `publish(message)` — fails synchronously with
`invalidMessageKind` before any delivery attempt (all-or-nothing) on the
abstract base kind, refuses after shutdown, and otherwise broadcasts to every
registered actor whose dispatch table matches the kind and resolves every
pending waiter whose filter matches the kind with that exact message. -/
def ActorSystem.publish (s : ActorSystem) (m : BaseMessage) :
    Except Err Unit × ActorSystem :=
  if m.kind = MsgKind.base then (.error .invalidMessageKind, s)
  else if s.isShutdown then (.error .alreadyShutdown, s)
  else
    (.ok (), { s with
      actors := s.actors.map (deliverTo m),
      waiters := s.waiters.filter (fun w => ¬ w.waitKind = m.kind),
      resolved := s.resolved ++
        ((s.waiters.filter (fun w => w.waitKind = m.kind)).map
          (fun w => (w.wid, WaitResult.delivered m))) })

/-- Modelled from the spec: `remove_actor(actor_id)` — deregisters the actor
(terminal `Removed` state); must not raise when the id is already absent. -/
def ActorSystem.remove_actor (s : ActorSystem) (aid : Nat) : ActorSystem :=
  { s with actors := s.actors.filter (fun a => ¬ a.actorId = aid) }

/-- Modelled from the spec: `wait_for_message(kind)` — registers a one-shot
waiter for `kind` under a fresh waiter handle and suspends only its own
calling context; the returned handle is resolved later through `resolved`. -/
def ActorSystem.wait_for_message (s : ActorSystem) (k : MsgKind) :
    Nat × ActorSystem :=
  (s.nextWid, { s with
    waiters := s.waiters ++ [⟨s.nextWid, k⟩],
    nextWid := s.nextWid + 1 })

/-- Modelled from the spec: `shutdown()` — cancels every outstanding waiter's
suspension with the cancellation signal, releases all per-actor resources,
and leaves the system refusing further sends, publishes and actor creation.
A total function: calling it again never raises. -/
def ActorSystem.shutdown (s : ActorSystem) : ActorSystem :=
  { s with
    actors := [],
    waiters := [],
    resolved := s.resolved ++ s.waiters.map (fun w => (w.wid, WaitResult.cancelled)),
    isShutdown := true }

/-- One client-visible operation of the runtime's public API, used to reason
about arbitrary usage histories of a single `ActorSystem` instance. -/
inductive Op where
  | opActorOf (f : Factory)
  | opActorsOf (fs : List Factory)
  | opSend (aid : Nat) (m : BaseMessage)
  | opPublish (m : BaseMessage)
  | opRemove (aid : Nat)
  | opWait (k : MsgKind)
  | opShutdown

/-- The state transition performed by one operation (results discarded). -/
def applyOp (s : ActorSystem) : Op → ActorSystem
  | .opActorOf f => (s.actor_of f).2
  | .opActorsOf fs => (s.actors_of fs).2
  | .opSend aid m => (s.send aid m).2
  | .opPublish m => (s.publish m).2
  | .opRemove aid => s.remove_actor aid
  | .opWait k => (s.wait_for_message k).2
  | .opShutdown => s.shutdown

/-- The system state after a history of operations. -/
def run (s : ActorSystem) (ops : List Op) : ActorSystem :=
  ops.foldl applyOp s

/-- The id-management invariant of the registry: registered ids are pairwise
distinct and every registered id is below the fresh-id counter. -/
def GoodIds (s : ActorSystem) : Prop :=
  s.ids.Nodup ∧ ∀ id ∈ s.ids, id < s.nextId

/-- Modelled from the spec: one scheduling event of the cooperative
single-scheduler runtime — a handler invocation `inv` starting on actor
`aid`, or that invocation ending (by running to completion or by reaching a
suspension point it intentionally yields from). -/
inductive SchedEv where
  | start (aid inv : Nat)
  | finish (aid inv : Nat)
deriving DecidableEq, Repr

/-- Modelled from the spec: the scheduler's state — which actors currently
have a handler invocation in progress (`running`), which invocations are
queued for which actor (`pendingInv`), and the log of scheduling events so
far (`trace`). -/
structure SchedState where
  running : List Nat
  pendingInv : List (Nat × Nat)
  trace : List SchedEv

/-- The scheduler's initial state: nothing queued, nothing running. -/
def initSched : SchedState :=
  ⟨[], [], []⟩

/-- Modelled from the spec: one step of the cooperative scheduler.  A message
delivery enqueues a handler invocation; the scheduler may start a queued
invocation only on an actor with no invocation in progress, and may end an
in-progress invocation at any time.  Different actors' invocations interleave
freely; the start rule is the per-actor sequencing discipline. -/
inductive SchedStep : SchedState → SchedState → Prop where
  | enqueue (s : SchedState) (aid inv : Nat) :
      SchedStep s { s with pendingInv := s.pendingInv ++ [(aid, inv)] }
  | startH (s : SchedState) (aid inv : Nat)
      (hmem : (aid, inv) ∈ s.pendingInv) (hrun : aid ∉ s.running) :
      SchedStep s
        { running := aid :: s.running,
          pendingInv := s.pendingInv.erase (aid, inv),
          trace := s.trace ++ [SchedEv.start aid inv] }
  | finishH (s : SchedState) (aid inv : Nat) (h : aid ∈ s.running) :
      SchedStep s
        { s with
          running := s.running.erase aid,
          trace := s.trace ++ [SchedEv.finish aid inv] }

/-- The scheduler states reachable from the initial state. -/
inductive SchedReachable : SchedState → Prop where
  | init : SchedReachable initSched
  | step {s t : SchedState} : SchedReachable s → SchedStep s t → SchedReachable t

/-- Recognizer for a start event of actor `aid`. -/
def isStartOf (aid : Nat) : SchedEv → Bool
  | .start a _ => a == aid
  | .finish _ _ => false

/-- Recognizer for a finish event of actor `aid`. -/
def isFinishOf (aid : Nat) : SchedEv → Bool
  | .start _ _ => false
  | .finish a _ => a == aid

/-- How many handler invocations have started on actor `aid` in a trace. -/
def startCount (aid : Nat) (t : List SchedEv) : Nat :=
  t.countP (isStartOf aid)

/-- How many handler invocations have ended on actor `aid` in a trace. -/
def finishCount (aid : Nat) (t : List SchedEv) : Nat :=
  t.countP (isFinishOf aid)

/-- A concrete live system with two registered actors (ids 0 and 1), both
declaring a handler for `Event` — the situation of `test_publishing`. -/
def sysTwo : ActorSystem :=
  ((ActorSystem.init.actor_of (Except.ok ⟨[MsgKind.event]⟩)).2.actor_of
    (Except.ok ⟨[MsgKind.event]⟩)).2

/-- Whether a runtime call succeeded. -/
def callOk {α : Type} : Except Err α → Bool
  | .ok _ => true
  | .error _ => false

/-- The actors a run of successful factories registers, with fresh ids
assigned consecutively starting at `start`. -/
def mkActors (start : Nat) : List ActorSpec → List Actor
  | [] => []
  | sp :: sps => ⟨start, sp.handled, none⟩ :: mkActors (start + 1) sps

/-- Extracts the declared specs of a factory batch when every factory
succeeds, `none` if any factory fails. -/
def allOk : List Factory → Option (List ActorSpec)
  | [] => some []
  | (Except.ok sp) :: fs => (allOk fs).map (sp :: ·)
  | (Except.error _) :: _ => none

/-- C1: publishing an `Event` with content `C` on a live system results in
every registered actor that declares a handler for kind `Event` observing
content equal to `C` once its handler has run. -/
theorem publish_delivers_to_all_event_handlers (s : ActorSystem) (m : BaseMessage)
    (hk : m.kind = MsgKind.event) (hs : s.isShutdown = false) :
    ∀ a ∈ (s.publish m).2.actors, a.handles MsgKind.event = true →
      a.received = some m.content := by
  intro a ha hh
  have hnb : ¬ m.kind = MsgKind.base := by rw [hk]; intro h; cases h
  simp only [ActorSystem.publish, hnb, if_false, hs, Bool.false_eq_true] at ha
  rcases List.mem_map.mp ha with ⟨a₀, -, rfl⟩
  by_cases h : a₀.handles m.kind
  · simp only [deliverTo, h, if_true]
  · exfalso
    have heq : deliverTo m a₀ = a₀ := by simp [deliverTo, h]
    rw [heq] at hh
    rw [hk] at h
    exact h hh

/-- Witness for C1 at a concrete system and message. -/
theorem publish_delivers_to_all_event_handlers_witness :
    (⟨MsgKind.event, "Content"⟩ : BaseMessage).kind = MsgKind.event ∧
    sysTwo.isShutdown = false ∧
    (⟨0, [MsgKind.event], some "Content"⟩ : Actor) ∈
      (sysTwo.publish ⟨MsgKind.event, "Content"⟩).2.actors ∧
    (⟨0, [MsgKind.event], some "Content"⟩ : Actor).received = some "Content" := by
  refine ⟨rfl, rfl, by decide, ?_⟩
  exact publish_delivers_to_all_event_handlers sysTwo ⟨MsgKind.event, "Content"⟩ rfl rfl
    ⟨0, [MsgKind.event], some "Content"⟩ (by decide) (by decide)

/-- C3: passing a message whose runtime kind is exactly the abstract base
kind to `publish` or `send` fails synchronously with `invalidMessageKind`,
and the system state is untouched — no delivery to any actor or waiter. -/
theorem base_message_rejected (s : ActorSystem) (m : BaseMessage) (aid : Nat)
    (hk : m.kind = MsgKind.base) :
    s.publish m = (Except.error Err.invalidMessageKind, s) ∧
    s.send aid m = (Except.error Err.invalidMessageKind, s) := by
  constructor <;> simp [ActorSystem.publish, ActorSystem.send, hk]

/-- After `remove_actor aid`, no registered actor carries id `aid`. -/
theorem remove_actor_not_mem (s : ActorSystem) (aid : Nat) :
    ∀ a ∈ (s.remove_actor aid).actors, ¬ a.actorId = aid := by
  intro a ha
  simp only [ActorSystem.remove_actor, List.mem_filter, decide_eq_true_eq] at ha
  exact ha.2

/-- Lookup of a removed id fails. -/
theorem remove_actor_getActor (s : ActorSystem) (aid : Nat) :
    (s.remove_actor aid).getActor aid = none := by
  apply List.find?_eq_none.mpr
  intro a ha
  simpa using remove_actor_not_mem s aid a ha

/-- C4: after `remove_actor(id)`, `id` is absent from membership, and a
subsequent `send(id, msg)` completes normally while recording the diagnostic
"Actor {id} not found." through the observability sink. -/
theorem remove_then_send_diagnoses (s : ActorSystem) (aid : Nat) (m : BaseMessage)
    (hk : ¬ m.kind = MsgKind.base) (hs : s.isShutdown = false) :
    aid ∉ (s.remove_actor aid).ids ∧
    ((s.remove_actor aid).send aid m).1 = Except.ok () ∧
    ("Actor " ++ toString aid ++ " not found.") ∈
      ((s.remove_actor aid).send aid m).2.log := by
  have habs := remove_actor_not_mem s aid
  have hget := remove_actor_getActor s aid
  refine ⟨?_, ?_, ?_⟩
  · intro hmem
    rcases List.mem_map.mp hmem with ⟨a, ha, haid⟩
    exact habs a ha haid
  · have hs' : (s.remove_actor aid).isShutdown = false := hs
    simp [ActorSystem.send, hk, hs', hget]
  · have hs' : (s.remove_actor aid).isShutdown = false := hs
    simp [ActorSystem.send, hk, hs', hget]

/-- Witness for C4 at a concrete system, id and message. -/
theorem remove_then_send_diagnoses_witness :
    ¬ (⟨MsgKind.event, "hi"⟩ : BaseMessage).kind = MsgKind.base ∧
    sysTwo.isShutdown = false ∧
    (0 ∉ (sysTwo.remove_actor 0).ids ∧
     ((sysTwo.remove_actor 0).send 0 ⟨MsgKind.event, "hi"⟩).1 = Except.ok () ∧
     ("Actor " ++ toString 0 ++ " not found.") ∈
       ((sysTwo.remove_actor 0).send 0 ⟨MsgKind.event, "hi"⟩).2.log) :=
  ⟨by decide, rfl,
    remove_then_send_diagnoses sysTwo 0 ⟨MsgKind.event, "hi"⟩ (by decide) rfl⟩

/-- C5: after `shutdown()`, every further `send`, `publish` and actor
creation is refused, no waiter is left pending (each outstanding waiter has
been resolved with the cancellation signal), and a second `shutdown()` is a
no-op on the already-shut-down system (in particular it cannot raise). -/
theorem shutdown_refuses_and_cancels (s : ActorSystem) (aid : Nat)
    (m : BaseMessage) (f : Factory) :
    callOk (s.shutdown.send aid m).1 = false ∧
    callOk (s.shutdown.publish m).1 = false ∧
    callOk (s.shutdown.actor_of f).1 = false ∧
    s.shutdown.waiters = [] ∧
    (∀ w ∈ s.waiters, (w.wid, WaitResult.cancelled) ∈ s.shutdown.resolved) ∧
    s.shutdown.shutdown = s.shutdown := by
  refine ⟨?_, ?_, ?_, rfl, ?_, ?_⟩
  · by_cases hk : m.kind = MsgKind.base <;>
      simp [ActorSystem.send, ActorSystem.shutdown, hk, callOk]
  · by_cases hk : m.kind = MsgKind.base <;>
      simp [ActorSystem.publish, ActorSystem.shutdown, hk, callOk]
  · simp [ActorSystem.actor_of, ActorSystem.shutdown, callOk]
  · intro w hw
    simp only [ActorSystem.shutdown]
    exact List.mem_append_right _ (List.mem_map.mpr ⟨w, hw, rfl⟩)
  · simp [ActorSystem.shutdown]

/-- Shared resolution lemma: a waiter registered by `wait_for_message k`
before a matching live `publish` is resolved with that exact message. -/
theorem wait_publish_aux (s : ActorSystem) (k : MsgKind) (m : BaseMessage)
    (hk : m.kind = k) (hb : ¬ m.kind = MsgKind.base) (hs : s.isShutdown = false) :
    ((s.wait_for_message k).2.publish m).1 = Except.ok () ∧
    ((s.wait_for_message k).1, WaitResult.delivered m) ∈
      ((s.wait_for_message k).2.publish m).2.resolved := by
  constructor
  · simp [ActorSystem.publish, ActorSystem.wait_for_message, hb, hs]
  · simp only [ActorSystem.publish, ActorSystem.wait_for_message, hb, hs, if_false,
      Bool.false_eq_true]
    apply List.mem_append_right
    apply List.mem_map.mpr
    refine ⟨⟨s.nextWid, k⟩, ?_, rfl⟩
    apply List.mem_filter.mpr
    refine ⟨List.mem_append_right _ (List.mem_singleton.mpr rfl), ?_⟩
    simp [hk]

/-- C2: a `wait_for_message(Event)` started before a matching
`publish(Event(content=C))` — regardless of any scheduling delay in between,
which does not change the registries — resolves to that exact event, whose
content therefore equals `C`. -/
theorem wait_before_publish_resolves (s : ActorSystem) (k : MsgKind)
    (m : BaseMessage) (hk : m.kind = k) (hb : ¬ m.kind = MsgKind.base)
    (hs : s.isShutdown = false) :
    ((s.wait_for_message k).2.publish m).1 = Except.ok () ∧
    ((s.wait_for_message k).1, WaitResult.delivered m) ∈
      ((s.wait_for_message k).2.publish m).2.resolved :=
  wait_publish_aux s k m hk hb hs

/-- Witness for C2 at a concrete system and event. -/
theorem wait_before_publish_resolves_witness :
    (⟨MsgKind.event, "Test event for waiting"⟩ : BaseMessage).kind = MsgKind.event ∧
    ¬ (⟨MsgKind.event, "Test event for waiting"⟩ : BaseMessage).kind = MsgKind.base ∧
    sysTwo.isShutdown = false ∧
    (((sysTwo.wait_for_message MsgKind.event).2.publish
        ⟨MsgKind.event, "Test event for waiting"⟩).1 = Except.ok () ∧
     ((sysTwo.wait_for_message MsgKind.event).1,
        WaitResult.delivered ⟨MsgKind.event, "Test event for waiting"⟩) ∈
       ((sysTwo.wait_for_message MsgKind.event).2.publish
         ⟨MsgKind.event, "Test event for waiting"⟩).2.resolved) :=
  ⟨rfl, by decide, rfl,
    wait_before_publish_resolves sysTwo MsgKind.event
      ⟨MsgKind.event, "Test event for waiting"⟩ rfl (by decide) rfl⟩

/-- C10: a pending waiter is resolved by a matching publish even when zero
actors are registered — resolution depends only on the waiter registry and
the message kind, and the actor registry stays empty throughout. -/
theorem waiter_resolved_with_zero_actors (s : ActorSystem) (k : MsgKind)
    (m : BaseMessage) (hk : m.kind = k) (hb : ¬ m.kind = MsgKind.base)
    (hs : s.isShutdown = false) (ha : s.actors = []) :
    ((s.wait_for_message k).2.publish m).1 = Except.ok () ∧
    ((s.wait_for_message k).1, WaitResult.delivered m) ∈
      ((s.wait_for_message k).2.publish m).2.resolved ∧
    ((s.wait_for_message k).2.publish m).2.actors = [] := by
  obtain ⟨h1, h2⟩ := wait_publish_aux s k m hk hb hs
  refine ⟨h1, h2, ?_⟩
  simp [ActorSystem.publish, hb, hs, ActorSystem.wait_for_message, ha]

/-- Witness for C10 on the empty system. -/
theorem waiter_resolved_with_zero_actors_witness :
    (⟨MsgKind.event, "ping"⟩ : BaseMessage).kind = MsgKind.event ∧
    ¬ (⟨MsgKind.event, "ping"⟩ : BaseMessage).kind = MsgKind.base ∧
    ActorSystem.init.isShutdown = false ∧
    ActorSystem.init.actors = [] ∧
    (((ActorSystem.init.wait_for_message MsgKind.event).2.publish
        ⟨MsgKind.event, "ping"⟩).1 = Except.ok () ∧
     ((ActorSystem.init.wait_for_message MsgKind.event).1,
        WaitResult.delivered ⟨MsgKind.event, "ping"⟩) ∈
       ((ActorSystem.init.wait_for_message MsgKind.event).2.publish
         ⟨MsgKind.event, "ping"⟩).2.resolved ∧
     ((ActorSystem.init.wait_for_message MsgKind.event).2.publish
        ⟨MsgKind.event, "ping"⟩).2.actors = []) :=
  ⟨rfl, by decide, rfl, rfl,
    waiter_resolved_with_zero_actors ActorSystem.init MsgKind.event
      ⟨MsgKind.event, "ping"⟩ rfl (by decide) rfl rfl⟩

/-- `actor_of` on a successful factory in a live system: registers one fresh
actor at the end of the registry and bumps the fresh-id counter. -/
theorem actor_of_ok (s : ActorSystem) (sp : ActorSpec) (hs : s.isShutdown = false) :
    s.actor_of (Except.ok sp) =
      (Except.ok ⟨s.nextId, sp.handled, none⟩,
       { s with actors := s.actors ++ [⟨s.nextId, sp.handled, none⟩],
                nextId := s.nextId + 1 }) := by
  simp [ActorSystem.actor_of, hs]

/-- `actor_of` on a failing factory in a live system: the failure propagates
and the state is untouched. -/
theorem actor_of_error (s : ActorSystem) (e : String) (hs : s.isShutdown = false) :
    s.actor_of (Except.error e) = (Except.error (Err.factoryError e), s) := by
  simp [ActorSystem.actor_of, hs]

/-- When `actors_of` fails, the state it leaves behind is the original one:
no partially-registered actors survive. -/
theorem actors_of_error_state (s : ActorSystem) (fs : List Factory) (e : Err)
    (h : (s.actors_of fs).1 = Except.error e) : (s.actors_of fs).2 = s := by
  induction fs generalizing s with
  | nil => simp [ActorSystem.actors_of] at h
  | cons f fs ih =>
    unfold ActorSystem.actors_of at h ⊢
    rcases hao : s.actor_of f with ⟨r, s₁⟩
    cases r with
    | error e' => simp [hao]
    | ok a =>
        rcases har : s₁.actors_of fs with ⟨r₂, s₂⟩
        cases r₂ with
        | error e₂ => simp [hao, har]
        | ok as => simp [hao, har] at h

/-- In a live system, a factory failure anywhere in the batch makes the whole
`actors_of` call fail with a propagated factory error. -/
theorem actors_of_fails (s : ActorSystem) (fs : List Factory) (e : String)
    (hs : s.isShutdown = false) (hmem : Except.error e ∈ fs) :
    ∃ e', (s.actors_of fs).1 = Except.error (Err.factoryError e') := by
  induction fs generalizing s with
  | nil => cases hmem
  | cons f fs ih =>
    cases f with
    | error e₀ =>
        refine ⟨e₀, ?_⟩
        unfold ActorSystem.actors_of
        rw [actor_of_error s e₀ hs]
    | ok sp =>
        have hf : Except.error e ∈ fs := by
          rcases List.mem_cons.mp hmem with hf | hf
          · cases hf
          · exact hf
        obtain ⟨e', he'⟩ := ih ({ s with
          actors := s.actors ++ [⟨s.nextId, sp.handled, none⟩],
          nextId := s.nextId + 1 }) hs hf
        refine ⟨e', ?_⟩
        unfold ActorSystem.actors_of
        rw [actor_of_ok s sp hs]
        rcases har : ActorSystem.actors_of { s with
          actors := s.actors ++ [⟨s.nextId, sp.handled, none⟩],
          nextId := s.nextId + 1 } fs with ⟨r₂, s₂⟩
        rw [har] at he'
        cases r₂ with
        | error e₂ =>
            simp only at he'
            simp [har, he']
        | ok as => simp at he'

/-- C7: a factory failure inside `actor_of` propagates unchanged with no
registration, and a factory failure anywhere inside `actors_of` makes the
whole call fail with a propagated factory error while leaving the system
state exactly as it was — no partially-registered actors remain. -/
theorem factory_failure_no_partial_registration (s : ActorSystem) (e : String)
    (fs : List Factory) (hs : s.isShutdown = false)
    (hmem : Except.error e ∈ fs) :
    s.actor_of (Except.error e) = (Except.error (Err.factoryError e), s) ∧
    (∃ e', (s.actors_of fs).1 = Except.error (Err.factoryError e')) ∧
    (s.actors_of fs).2 = s := by
  refine ⟨actor_of_error s e hs, actors_of_fails s fs e hs hmem, ?_⟩
  obtain ⟨e', he'⟩ := actors_of_fails s fs e hs hmem
  exact actors_of_error_state s fs _ he'

/-- Witness for C7 at a concrete failing batch. -/
theorem factory_failure_no_partial_registration_witness :
    ActorSystem.init.isShutdown = false ∧
    (Except.error "boom" : Factory) ∈
      ([Except.ok ⟨[]⟩, Except.error "boom"] : List Factory) ∧
    (ActorSystem.init.actor_of (Except.error "boom") =
      (Except.error (Err.factoryError "boom"), ActorSystem.init) ∧
     (∃ e', (ActorSystem.init.actors_of
        [Except.ok ⟨[]⟩, Except.error "boom"]).1 =
          Except.error (Err.factoryError e')) ∧
     (ActorSystem.init.actors_of [Except.ok ⟨[]⟩, Except.error "boom"]).2 =
       ActorSystem.init) :=
  ⟨rfl, List.mem_cons_of_mem _ (List.mem_singleton.mpr rfl),
    factory_failure_no_partial_registration ActorSystem.init "boom"
      [Except.ok ⟨[]⟩, Except.error "boom"] rfl
      (List.mem_cons_of_mem _ (List.mem_singleton.mpr rfl))⟩

/-- Witness for C3 at a concrete base-kind message. -/
theorem base_message_rejected_witness :
    (⟨MsgKind.base, "x"⟩ : BaseMessage).kind = MsgKind.base ∧
    ActorSystem.init.publish ⟨MsgKind.base, "x"⟩ =
      (Except.error Err.invalidMessageKind, ActorSystem.init) ∧
    ActorSystem.init.send 0 ⟨MsgKind.base, "x"⟩ =
      (Except.error Err.invalidMessageKind, ActorSystem.init) := by
  refine ⟨rfl, ?_, ?_⟩
  · exact (base_message_rejected ActorSystem.init ⟨MsgKind.base, "x"⟩ 0 rfl).1
  · exact (base_message_rejected ActorSystem.init ⟨MsgKind.base, "x"⟩ 0 rfl).2

/-- `mkActors` creates one actor per spec. -/
theorem mkActors_length (start : Nat) (sps : List ActorSpec) :
    (mkActors start sps).length = sps.length := by
  induction sps generalizing start with
  | nil => rfl
  | cons sp sps ih => simp [mkActors, ih]

/-- A fully successful batch has as many specs as factories. -/
theorem allOk_length (fs : List Factory) (sps : List ActorSpec)
    (h : allOk fs = some sps) : sps.length = fs.length := by
  induction fs generalizing sps with
  | nil =>
      simp only [allOk, Option.some.injEq] at h
      subst h; rfl
  | cons f fs ih =>
      cases f with
      | error e => simp [allOk] at h
      | ok sp =>
          simp only [allOk] at h
          cases hfs : allOk fs with
          | none => rw [hfs] at h; simp at h
          | some sps' =>
              rw [hfs] at h
              simp only [Option.map_some', Option.some.injEq] at h
              subst h
              simp [ih sps' hfs]

/-- Every actor created by `mkActors start` has id at least `start`. -/
theorem mem_mkActors_ge (start : Nat) (sps : List ActorSpec) (a : Actor)
    (h : a ∈ mkActors start sps) : start ≤ a.actorId := by
  induction sps generalizing start with
  | nil => cases h
  | cons sp sps ih =>
      rcases List.mem_cons.mp h with h | h
      · subst h; simp
      · exact Nat.le_of_succ_le (ih (start + 1) h)

/-- The ids assigned by `mkActors` are pairwise distinct. -/
theorem mkActors_nodup (start : Nat) (sps : List ActorSpec) :
    ((mkActors start sps).map (·.actorId)).Nodup := by
  induction sps generalizing start with
  | nil => simp [mkActors]
  | cons sp sps ih =>
      simp only [mkActors, List.map_cons]
      refine List.nodup_cons.mpr ⟨?_, ih (start + 1)⟩
      intro hmem
      rcases List.mem_map.mp hmem with ⟨a, ha, haid⟩
      have := mem_mkActors_ge (start + 1) sps a ha
      omega

/-- The i-th created actor carries the i-th factory's dispatch table. -/
theorem mkActors_handled (start : Nat) (sps : List ActorSpec) :
    (mkActors start sps).map (·.handled) = sps.map (·.handled) := by
  induction sps generalizing start with
  | nil => rfl
  | cons sp sps ih => simp [mkActors, ih]

/-- Looking up a created actor by its id among the created actors finds it. -/
theorem mkActors_find (start : Nat) (sps : List ActorSpec) (a : Actor)
    (h : a ∈ mkActors start sps) :
    (mkActors start sps).find? (fun x => x.actorId == a.actorId) = some a := by
  induction sps generalizing start with
  | nil => cases h
  | cons sp sps ih =>
      rcases List.mem_cons.mp h with h | h
      · subst h
        simp only [mkActors]
        rw [List.find?_cons_of_pos _ (by simp)]
      · have hge := mem_mkActors_ge (start + 1) sps a h
        simp only [mkActors]
        rw [List.find?_cons_of_neg _ (by simp; omega)]
        exact ih (start + 1) h

/-- Characterization of a fully successful `actors_of` call on a live
system: it returns the freshly created actors in input order and appends
them to the registry, bumping the id counter by the batch size. -/
theorem actors_of_ok_spec (fs : List Factory) (s : ActorSystem)
    (sps : List ActorSpec) (hs : s.isShutdown = false)
    (hall : allOk fs = some sps) :
    s.actors_of fs =
      (Except.ok (mkActors s.nextId sps),
       { s with actors := s.actors ++ mkActors s.nextId sps,
                nextId := s.nextId + sps.length }) := by
  induction fs generalizing s sps with
  | nil =>
      simp only [allOk, Option.some.injEq] at hall
      subst hall
      simp [ActorSystem.actors_of, mkActors]
  | cons f fs ih =>
      cases f with
      | error e => simp [allOk] at hall
      | ok sp =>
          simp only [allOk] at hall
          cases hfs : allOk fs with
          | none => rw [hfs] at hall; simp at hall
          | some sps' =>
              rw [hfs] at hall
              simp only [Option.map_some', Option.some.injEq] at hall
              subst hall
              have hih := ih ({ s with
                actors := s.actors ++ [⟨s.nextId, sp.handled, none⟩],
                nextId := s.nextId + 1 }) sps' hs hfs
              unfold ActorSystem.actors_of
              rw [actor_of_ok s sp hs]
              simp [hih, mkActors, List.append_assoc]
              all_goals omega

/-- C6: a fully successful `actors_of([F1, ..., Fn])` on a live system
returns exactly n actors with pairwise distinct ids, in input order with
the i-th actor carrying the i-th factory's declared dispatch table, and
every returned actor is afterwards independently addressable by its id. -/
theorem actors_of_batch (s : ActorSystem) (fs : List Factory)
    (sps : List ActorSpec) (hs : s.isShutdown = false)
    (hall : allOk fs = some sps) (hg : GoodIds s) :
    ∃ as, (s.actors_of fs).1 = Except.ok as ∧
      as.length = fs.length ∧
      (as.map (·.actorId)).Nodup ∧
      as.map (·.handled) = sps.map (·.handled) ∧
      ∀ a ∈ as, (s.actors_of fs).2.getActor a.actorId = some a := by
  have hspec := actors_of_ok_spec fs s sps hs hall
  refine ⟨mkActors s.nextId sps, ?_, ?_, ?_, ?_, ?_⟩
  · rw [hspec]
  · rw [mkActors_length]; exact allOk_length fs sps hall
  · exact mkActors_nodup s.nextId sps
  · exact mkActors_handled s.nextId sps
  · intro a ha
    rw [hspec]
    simp only [ActorSystem.getActor]
    rw [List.find?_append]
    have h1 : s.actors.find? (fun x => x.actorId == a.actorId) = none := by
      apply List.find?_eq_none.mpr
      intro x hx
      have hlt := hg.2 x.actorId (List.mem_map_of_mem _ hx)
      have hge := mem_mkActors_ge s.nextId sps a ha
      simp only [beq_iff_eq]
      omega
    rw [h1]
    simpa using mkActors_find s.nextId sps a ha

/-- Witness for C6 at a concrete two-factory batch on the fresh system. -/
theorem actors_of_batch_witness :
    ActorSystem.init.isShutdown = false ∧
    allOk [Except.ok ⟨[MsgKind.event]⟩, Except.ok ⟨[MsgKind.command]⟩] =
      some [⟨[MsgKind.event]⟩, ⟨[MsgKind.command]⟩] ∧
    GoodIds ActorSystem.init ∧
    (∃ as, (ActorSystem.init.actors_of
        [Except.ok ⟨[MsgKind.event]⟩, Except.ok ⟨[MsgKind.command]⟩]).1 =
          Except.ok as ∧
      as.length =
        ([Except.ok ⟨[MsgKind.event]⟩, Except.ok ⟨[MsgKind.command]⟩] :
          List Factory).length ∧
      (as.map (·.actorId)).Nodup ∧
      as.map (·.handled) =
        ([⟨[MsgKind.event]⟩, ⟨[MsgKind.command]⟩] :
          List ActorSpec).map (·.handled) ∧
      ∀ a ∈ as, (ActorSystem.init.actors_of
        [Except.ok ⟨[MsgKind.event]⟩,
         Except.ok ⟨[MsgKind.command]⟩]).2.getActor a.actorId = some a) := by
  refine ⟨rfl, rfl, ⟨List.nodup_nil, by simp [ActorSystem.init, ActorSystem.ids]⟩, ?_⟩
  exact actors_of_batch ActorSystem.init
    [Except.ok ⟨[MsgKind.event]⟩, Except.ok ⟨[MsgKind.command]⟩]
    [⟨[MsgKind.event]⟩, ⟨[MsgKind.command]⟩] rfl rfl
    ⟨List.nodup_nil, by simp [ActorSystem.init, ActorSystem.ids]⟩

/-- Delivery never changes an actor's id. -/
theorem deliverTo_actorId (m : BaseMessage) (a : Actor) :
    (deliverTo m a).actorId = a.actorId := by
  unfold deliverTo
  split <;> rfl

/-- `send` never changes the set of registered ids or the id counter. -/
theorem send_ids (s : ActorSystem) (aid : Nat) (m : BaseMessage) :
    (s.send aid m).2.ids = s.ids ∧ (s.send aid m).2.nextId = s.nextId := by
  unfold ActorSystem.send
  split
  · exact ⟨rfl, rfl⟩
  split
  · exact ⟨rfl, rfl⟩
  split
  · refine ⟨?_, rfl⟩
    simp only [ActorSystem.ids, List.map_map]
    apply List.map_congr_left
    intro a _
    simp only [Function.comp_apply]
    split
    · exact deliverTo_actorId m a
    · rfl
  · exact ⟨rfl, rfl⟩

/-- `publish` never changes the set of registered ids or the id counter. -/
theorem publish_ids (s : ActorSystem) (m : BaseMessage) :
    (s.publish m).2.ids = s.ids ∧ (s.publish m).2.nextId = s.nextId := by
  unfold ActorSystem.publish
  split
  · exact ⟨rfl, rfl⟩
  split
  · exact ⟨rfl, rfl⟩
  refine ⟨?_, rfl⟩
  simp only [ActorSystem.ids, List.map_map]
  apply List.map_congr_left
  intro a _
  exact deliverTo_actorId m a

/-- `GoodIds` depends only on the id list and the counter. -/
theorem goodIds_congr (s t : ActorSystem) (h1 : t.ids = s.ids)
    (h2 : t.nextId = s.nextId) (hg : GoodIds s) : GoodIds t := by
  unfold GoodIds at *
  rw [h1, h2]
  exact hg

/-- `actor_of` preserves the id invariant, never decreases the counter, and
only ever adds ids at or above the old counter. -/
theorem actor_of_good (s : ActorSystem) (f : Factory) (hg : GoodIds s) :
    GoodIds (s.actor_of f).2 ∧ s.nextId ≤ (s.actor_of f).2.nextId ∧
    ∀ id ∈ (s.actor_of f).2.ids, id ∈ s.ids ∨ s.nextId ≤ id := by
  by_cases hs : s.isShutdown = true
  · have heq : s.actor_of f = (.error .alreadyShutdown, s) := by
      simp [ActorSystem.actor_of, hs]
    rw [heq]
    exact ⟨hg, Nat.le_refl _, fun id h => Or.inl h⟩
  · have hs' : s.isShutdown = false := by simpa using hs
    cases f with
    | error e =>
        rw [actor_of_error s e hs']
        exact ⟨hg, Nat.le_refl _, fun id h => Or.inl h⟩
    | ok sp =>
        rw [actor_of_ok s sp hs']
        dsimp only
        have hids : ({ s with
            actors := s.actors ++ [⟨s.nextId, sp.handled, none⟩],
            nextId := s.nextId + 1 } : ActorSystem).ids = s.ids ++ [s.nextId] := by
          simp [ActorSystem.ids]
        refine ⟨⟨?_, ?_⟩, Nat.le_succ _, ?_⟩
        · rw [hids]
          refine List.Nodup.append hg.1 (List.nodup_singleton _) ?_
          intro x hx hx'
          have hlt := hg.2 x hx
          rw [List.mem_singleton.mp hx'] at hlt
          omega
        · intro id hid
          rw [hids] at hid
          rcases List.mem_append.mp hid with h | h
          · exact Nat.lt_succ_of_lt (hg.2 id h)
          · rw [List.mem_singleton.mp h]
            exact Nat.lt_succ_self _
        · intro id hid
          rw [hids] at hid
          rcases List.mem_append.mp hid with h | h
          · exact Or.inl h
          · rw [List.mem_singleton.mp h]
            exact Or.inr (Nat.le_refl _)

/-- `actors_of` preserves the id invariant, never decreases the counter, and
only ever adds ids at or above the old counter. -/
theorem actors_of_good (fs : List Factory) (s : ActorSystem) (hg : GoodIds s) :
    GoodIds (s.actors_of fs).2 ∧ s.nextId ≤ (s.actors_of fs).2.nextId ∧
    ∀ id ∈ (s.actors_of fs).2.ids, id ∈ s.ids ∨ s.nextId ≤ id := by
  induction fs generalizing s with
  | nil => exact ⟨hg, Nat.le_refl _, fun id h => Or.inl h⟩
  | cons f fs ih =>
      unfold ActorSystem.actors_of
      rcases hao : s.actor_of f with ⟨r, s₁⟩
      have hgood := actor_of_good s f hg
      rw [hao] at hgood
      cases r with
      | error e =>
          simp only [hao]
          exact ⟨hg, Nat.le_refl _, fun id h => Or.inl h⟩
      | ok a =>
          rcases har : s₁.actors_of fs with ⟨r₂, s₂⟩
          have hih := ih s₁ hgood.1
          rw [har] at hih
          cases r₂ with
          | error e₂ =>
              simp only [hao, har]
              exact ⟨hg, Nat.le_refl _, fun id h => Or.inl h⟩
          | ok as =>
              simp only [hao, har]
              refine ⟨hih.1, Nat.le_trans hgood.2.1 hih.2.1, ?_⟩
              intro id hid
              rcases hih.2.2 id hid with h | h
              · rcases hgood.2.2 id h with h' | h'
                · exact Or.inl h'
                · exact Or.inr h'
              · exact Or.inr (Nat.le_trans hgood.2.1 h)

/-- `remove_actor` only shrinks the id set and keeps the counter. -/
theorem remove_actor_good (s : ActorSystem) (aid : Nat) (hg : GoodIds s) :
    GoodIds (s.remove_actor aid) ∧ (s.remove_actor aid).nextId = s.nextId ∧
    ∀ id ∈ (s.remove_actor aid).ids, id ∈ s.ids := by
  have hsub : (s.remove_actor aid).ids.Sublist s.ids :=
    List.Sublist.map _ (List.filter_sublist _)
  refine ⟨⟨List.Nodup.sublist hsub hg.1, ?_⟩, rfl, fun id h => hsub.subset h⟩
  intro id hid
  exact hg.2 id (hsub.subset hid)

/-- Every operation preserves the id invariant, never decreases the id
counter, and only ever adds ids at or above the old counter. -/
theorem applyOp_good (s : ActorSystem) (op : Op) (hg : GoodIds s) :
    GoodIds (applyOp s op) ∧ s.nextId ≤ (applyOp s op).nextId ∧
    ∀ id ∈ (applyOp s op).ids, id ∈ s.ids ∨ s.nextId ≤ id := by
  cases op with
  | opActorOf f => exact actor_of_good s f hg
  | opActorsOf fs => exact actors_of_good fs s hg
  | opSend aid m =>
      obtain ⟨h1, h2⟩ := send_ids s aid m
      refine ⟨goodIds_congr s _ h1 h2 hg, Nat.le_of_eq h2.symm, ?_⟩
      intro id hid
      rw [show (applyOp s (Op.opSend aid m)).ids = s.ids from h1] at hid
      exact Or.inl hid
  | opPublish m =>
      obtain ⟨h1, h2⟩ := publish_ids s m
      refine ⟨goodIds_congr s _ h1 h2 hg, Nat.le_of_eq h2.symm, ?_⟩
      intro id hid
      rw [show (applyOp s (Op.opPublish m)).ids = s.ids from h1] at hid
      exact Or.inl hid
  | opRemove aid =>
      obtain ⟨hgood, h2, hsub⟩ := remove_actor_good s aid hg
      exact ⟨hgood, Nat.le_of_eq h2.symm, fun id h => Or.inl (hsub id h)⟩
  | opWait k => exact ⟨goodIds_congr s _ rfl rfl hg, Nat.le_refl _, fun id h => Or.inl h⟩
  | opShutdown =>
      refine ⟨⟨List.nodup_nil, ?_⟩, Nat.le_refl _, ?_⟩ <;>
        simp [applyOp, ActorSystem.shutdown, ActorSystem.ids]

/-- The id invariant holds along every run. -/
theorem run_good (ops : List Op) (s : ActorSystem) (hg : GoodIds s) :
    GoodIds (run s ops) := by
  induction ops generalizing s with
  | nil => exact hg
  | cons op ops ih => exact ih _ (applyOp_good s op hg).1

/-- An id that has been allocated (below the counter) and is currently
absent stays absent and below the counter along every further run. -/
theorem run_fresh (ops : List Op) (s : ActorSystem) (id : Nat) (hg : GoodIds s)
    (h1 : id < s.nextId) (h2 : id ∉ s.ids) :
    id < (run s ops).nextId ∧ id ∉ (run s ops).ids := by
  induction ops generalizing s with
  | nil => exact ⟨h1, h2⟩
  | cons op ops ih =>
      obtain ⟨hgood, hle, hmem⟩ := applyOp_good s op hg
      refine ih (applyOp s op) hgood ?_ ?_
      · omega
      · intro hin
        rcases hmem id hin with h | h
        · exact h2 h
        · omega

/-- The fresh system satisfies the id invariant. -/
theorem goodIds_init : GoodIds ActorSystem.init := by
  constructor
  · exact List.nodup_nil
  · simp [ActorSystem.init, ActorSystem.ids]

/-- C8: along any usage history of one `ActorSystem` instance, registered
actor ids are pairwise distinct, and an id that has been allocated and then
removed is never reused for any actor along any continuation of the run. -/
theorem actor_ids_unique_never_reused (ops more : List Op) (id : Nat)
    (halloc : id < (run ActorSystem.init ops).nextId)
    (hgone : id ∉ (run ActorSystem.init ops).ids) :
    (run ActorSystem.init ops).ids.Nodup ∧
    id ∉ (run ActorSystem.init (ops ++ more)).ids := by
  have hg := run_good ops ActorSystem.init goodIds_init
  refine ⟨hg.1, ?_⟩
  have happ : run ActorSystem.init (ops ++ more) =
      run (run ActorSystem.init ops) more := by
    unfold run
    exact List.foldl_append _ _ _ _
  rw [happ]
  exact (run_fresh more (run ActorSystem.init ops) id hg halloc hgone).2

/-- Witness for C8: create actor 0, remove it, create another actor — the
freed id 0 is not reused. -/
theorem actor_ids_unique_never_reused_witness :
    0 < (run ActorSystem.init
      [Op.opActorOf (Except.ok ⟨[]⟩), Op.opRemove 0]).nextId ∧
    0 ∉ (run ActorSystem.init
      [Op.opActorOf (Except.ok ⟨[]⟩), Op.opRemove 0]).ids ∧
    ((run ActorSystem.init
        [Op.opActorOf (Except.ok ⟨[]⟩), Op.opRemove 0]).ids.Nodup ∧
     0 ∉ (run ActorSystem.init
       ([Op.opActorOf (Except.ok ⟨[]⟩), Op.opRemove 0] ++
        [Op.opActorOf (Except.ok ⟨[]⟩)])).ids) :=
  ⟨by decide, by decide,
    actor_ids_unique_never_reused
      [Op.opActorOf (Except.ok ⟨[]⟩), Op.opRemove 0]
      [Op.opActorOf (Except.ok ⟨[]⟩)] 0 (by decide) (by decide)⟩

/-- The scheduler invariant: no actor has two invocations in progress, and
per actor the trace's start count exceeds its finish count exactly by the
running flag. -/
theorem sched_inv (s : SchedState) (h : SchedReachable s) :
    s.running.Nodup ∧
    ∀ aid, startCount aid s.trace =
      finishCount aid s.trace + (if aid ∈ s.running then 1 else 0) := by
  induction h with
  | init => simp [initSched, startCount, finishCount]
  | step hr hstep ih =>
      rename_i sp tp
      cases hstep with
      | enqueue aid inv => exact ih
      | startH aid inv hmem hrun =>
          obtain ⟨hnd, hcnt⟩ := ih
          refine ⟨List.nodup_cons.mpr ⟨hrun, hnd⟩, ?_⟩
          intro b
          simp only [startCount, finishCount, List.countP_append,
            List.countP_cons, List.countP_nil]
          by_cases h' : b = aid
          · subst h'
            have hc := hcnt b
            simp only [startCount, finishCount] at hc
            rw [if_neg hrun] at hc
            simp [isStartOf, isFinishOf, List.mem_cons]
            omega
          · have hc := hcnt b
            simp only [startCount, finishCount] at hc
            have hne : (aid == b) = false :=
              beq_eq_false_iff_ne.mpr fun hh => h' hh.symm
            by_cases hm : b ∈ sp.running
            · rw [if_pos hm] at hc
              simp [isStartOf, isFinishOf, hne, List.mem_cons, h', hm]
              omega
            · rw [if_neg hm] at hc
              simp [isStartOf, isFinishOf, hne, List.mem_cons, h', hm]
              omega
      | finishH aid inv hmem =>
          obtain ⟨hnd, hcnt⟩ := ih
          refine ⟨List.Nodup.erase _ hnd, ?_⟩
          intro b
          simp only [startCount, finishCount, List.countP_append,
            List.countP_cons, List.countP_nil]
          by_cases h' : b = aid
          · subst h'
            have hc := hcnt b
            simp only [startCount, finishCount] at hc
            rw [if_pos hmem] at hc
            have hna : b ∉ sp.running.erase b := by
              intro hin
              exact ((List.Nodup.mem_erase_iff hnd).mp hin).1 rfl
            simp [isStartOf, isFinishOf, hna]
            omega
          · have hc := hcnt b
            simp only [startCount, finishCount] at hc
            have hne : (aid == b) = false :=
              beq_eq_false_iff_ne.mpr fun hh => h' hh.symm
            have hiff : b ∈ sp.running.erase aid ↔ b ∈ sp.running := by
              rw [List.Nodup.mem_erase_iff hnd]
              exact ⟨And.right, fun hm => ⟨h', hm⟩⟩
            by_cases hm : b ∈ sp.running
            · rw [if_pos hm] at hc
              simp [isStartOf, isFinishOf, hne, hiff, hm]
              omega
            · rw [if_neg hm] at hc
              simp [isStartOf, isFinishOf, hne, hiff, hm]
              omega

/-- In any reachable scheduler state the whole trace never records more than
one unmatched start per actor. -/
theorem sched_full_bound (s : SchedState) (h : SchedReachable s) (aid : Nat) :
    startCount aid s.trace ≤ finishCount aid s.trace + 1 := by
  have hinv := (sched_inv s h).2 aid
  by_cases hm : aid ∈ s.running
  · rw [if_pos hm] at hinv
    omega
  · rw [if_neg hm] at hinv
    omega

/-- Extending a trace by one event keeps the prefix bound, given the bound
for the old prefixes and for the full new trace. -/
theorem count_take_concat (t : List SchedEv) (e : SchedEv) (aid n : Nat)
    (hfull : startCount aid (t ++ [e]) ≤ finishCount aid (t ++ [e]) + 1)
    (ih : startCount aid (t.take n) ≤ finishCount aid (t.take n) + 1) :
    startCount aid ((t ++ [e]).take n) ≤
      finishCount aid ((t ++ [e]).take n) + 1 := by
  by_cases hn : n ≤ t.length
  · rw [List.take_append_eq_append_take]
    have h0 : n - t.length = 0 := by omega
    rw [h0]
    simp only [List.take_zero, List.append_nil]
    exact ih
  · have hlen : (t ++ [e]).length ≤ n := by
      simp only [List.length_append, List.length_singleton]
      omega
    rw [List.take_of_length_le hlen]
    exact hfull

/-- C9: in every reachable scheduler state, every prefix of the scheduling
trace shows at most one unmatched handler start per actor: a second handler
invocation on the same actor is never started before the previous one has
finished (completed or intentionally yielded), even though different
actors' invocations interleave freely. -/
theorem per_actor_handler_sequencing (s : SchedState) (h : SchedReachable s)
    (aid n : Nat) :
    startCount aid (s.trace.take n) ≤ finishCount aid (s.trace.take n) + 1 := by
  induction h with
  | init => simp [initSched, startCount, finishCount]
  | step hr hstep ih =>
      rename_i sp tp
      cases hstep with
      | enqueue b inv => exact ih
      | startH b inv hmem hrun =>
          exact count_take_concat sp.trace (SchedEv.start b inv) aid n
            (sched_full_bound _
              (SchedReachable.step hr (SchedStep.startH sp b inv hmem hrun)) aid)
            ih
      | finishH b inv hmem =>
          exact count_take_concat sp.trace (SchedEv.finish b inv) aid n
            (sched_full_bound _
              (SchedReachable.step hr (SchedStep.finishH sp b inv hmem)) aid)
            ih

/-- Witness for C9 at the initial scheduler state. -/
theorem per_actor_handler_sequencing_witness :
    startCount 0 (initSched.trace.take 3) ≤
      finishCount 0 (initSched.trace.take 3) + 1 :=
  per_actor_handler_sequencing initSched SchedReachable.init 0 3
